import Mathlib

/-!
Verification development for the banking chatbot repository.

The two core components are embedded from the source:
* `nlu_engine/entity_extractor.py` — a rule-based entity extractor built on
  Python `re` patterns with a span-reservation (non-overlap) discipline.
  The regular expressions are transliterated into a small regex AST (`Re`)
  together with a backtracking matcher (`Re.runs`) that mirrors Python's
  leftmost, alternation-ordered, greedy semantics for the constructs these
  patterns use (all patterns are compiled with `re.I`, so case-insensitive
  character comparison is baked into the matcher).  Unbounded `*` / `+`
  repetitions are represented by repetitions bounded by the text length,
  which is equivalent here because every repeated sub-pattern consumes at
  least one character.  Word/space/digit character classes use their ASCII
  meaning.
* `dialogue_manager/dialogue_handler.py` — the dialogue state machine.
  The banking gateway (`database/bank_crud.py` is not part of the sources;
  the spec treats it as an external collaborator) is a record of pure
  functions; the interaction logger's database write is abstracted to a
  success flag, and Python exceptions (logger failure, `int()` ValueError,
  dict KeyError) are explicit `Except` results paired with the state as
  mutated up to the raise point.
-/

namespace BankBot

/-- ASCII word character, Python `\w` restricted to ASCII: `[A-Za-z0-9_]`. -/
def isWordChar (c : Char) : Bool := c.isAlphanum || c == '_'

/-- Python `\s` (ASCII): space, tab, newline, carriage return, vertical tab, form feed. -/
def isSpaceChar (c : Char) : Bool :=
  c == ' ' || c == '\t' || c == '\n' || c == '\r' || c == Char.ofNat 11 || c == Char.ofNat 12

/-- Regex AST covering the constructs used by the extractor's patterns.
`opt` is greedy `?`; bounded repetition is built from `opt` and `seq`
(see `upTo`/`repRange`). -/
inductive Re where
  | eps   : Re
  | chr   : Char → Re
  | cls   : (Char → Bool) → Re
  | seq   : Re → Re → Re
  | alt   : Re → Re → Re
  | opt   : Re → Re
  | wordB : Re
  | group : Nat → Re → Re

/-- Captured group spans: (group index, start, end); most recent first. -/
abbrev Caps := List (Nat × Nat × Nat)

/-- Is the character at position `i` a word character (`false` past the end)? -/
def wordAt (t : List Char) (i : Nat) : Bool :=
  match t.get? i with
  | some c => isWordChar c
  | none => false

/-- Python `\b`: word/non-word transition at position `i` (string edges count as non-word). -/
def boundaryAt (t : List Char) (i : Nat) : Bool :=
  match i with
  | 0 => wordAt t 0
  | j + 1 => wordAt t j != wordAt t (j + 1)

/-- Backtracking matcher: all end positions (with captures) of `r` matching at
position `i` of `t`, in Python's backtracking preference order (first element
= the match Python's engine would pick at this start position). -/
def Re.runs (t : List Char) : Re → Nat → Caps → List (Nat × Caps)
  | .eps, i, caps => [(i, caps)]
  | .chr c, i, caps =>
      match t.get? i with
      | some d => if d.toLower == c.toLower then [(i + 1, caps)] else []
      | none => []
  | .cls f, i, caps =>
      match t.get? i with
      | some d => if f d then [(i + 1, caps)] else []
      | none => []
  | .seq a b, i, caps => (Re.runs t a i caps).flatMap fun r => Re.runs t b r.1 r.2
  | .alt a b, i, caps => Re.runs t a i caps ++ Re.runs t b i caps
  | .opt a, i, caps => Re.runs t a i caps ++ [(i, caps)]
  | .wordB, i, caps => if boundaryAt t i then [(i, caps)] else []
  | .group idx a, i, caps => (Re.runs t a i caps).map fun r => (r.1, (idx, i, r.1) :: r.2)

/-- Concatenation of a list of regexes. -/
def rcat : List Re → Re
  | [] => .eps
  | [r] => r
  | r :: rs => .seq r (rcat rs)

/-- Ordered alternation of a list of regexes (Python `a|b|c` tries left to right). -/
def ralt : List Re → Re
  | [] => .cls fun _ => false
  | [r] => r
  | r :: rs => .alt r (ralt rs)

/-- Literal string (matched case-insensitively, as all patterns use `re.I`). -/
def lit (s : String) : Re := rcat (s.toList.map .chr)

/-- Greedy `r{0,n}`: prefers as many repetitions as possible. -/
def upTo : Nat → Re → Re
  | 0, _ => .eps
  | n + 1, r => .opt (.seq r (upTo n r))

/-- Exactly `n` copies of `r`. -/
def reN : Nat → Re → Re
  | 0, _ => .eps
  | n + 1, r => .seq r (reN n r)

/-- Greedy `r{m,M}` as `r{m}` followed by `r{0,M-m}`. -/
def repRange (m M : Nat) (r : Re) : Re := .seq (reN m r) (upTo (M - m) r)

/-- Greedy `r*`, bounded by the text length `n` (each iteration of the
repeated patterns below consumes at least one character, so `n` iterations
always suffice). -/
def star (n : Nat) (r : Re) : Re := upTo n r

/-- Greedy `r+`, bounded by the text length `n`. -/
def plus (n : Nat) (r : Re) : Re := .seq r (star n r)

/-! ### Python string primitives.
The Lean core `String` functions (`trim`, `replace`, `splitOn`, ...) are
defined by well-founded recursion on byte positions and do not reduce by
kernel evaluation, so the Python `str` methods the source uses are given
explicit structurally-recursive definitions (ASCII case folding, as
everywhere in this development). -/

/-- Python `str.strip()`. -/
def pyStrip (s : String) : String :=
  String.mk (((s.toList.dropWhile isSpaceChar).reverse.dropWhile isSpaceChar).reverse)

/-- Python `str.lower()` (ASCII). -/
def pyLower (s : String) : String :=
  String.mk (s.toList.map Char.toLower)

/-- Python `str.replace(old, new)` on character lists: leftmost,
non-overlapping occurrences (callers always pass a nonempty `old`). -/
def pyReplaceL (old new : List Char) : Nat → List Char → List Char
  | 0, cs => cs
  | _ + 1, [] => []
  | fuel + 1, c :: rest =>
    if old ≠ [] ∧ old.isPrefixOf (c :: rest) then
      new ++ pyReplaceL old new fuel ((c :: rest).drop old.length)
    else c :: pyReplaceL old new fuel rest

/-- Python `str.replace(old, new)`. -/
def pyReplace (s old new : String) : String :=
  String.mk (pyReplaceL old.toList new.toList (s.toList.length + 1) s.toList)

/-- Python `str.split(sep)` on character lists (`sep` nonempty; `cur` holds
the current fragment reversed). -/
def pySplitL (sep : List Char) : Nat → List Char → List Char → List (List Char)
  | 0, cs, cur => [cur.reverse ++ cs]
  | _ + 1, [], cur => [cur.reverse]
  | fuel + 1, c :: rest, cur =>
    if sep.isPrefixOf (c :: rest) then
      cur.reverse :: pySplitL sep fuel ((c :: rest).drop sep.length) []
    else pySplitL sep fuel rest (c :: cur)

/-- Python `str.split(sep)`. -/
def pySplit (s sep : String) : List String :=
  (pySplitL sep.toList (s.toList.length + 1) s.toList []).map String.mk

/-- Python `str.startswith(pre)`. -/
def pyStartsWith (s pre : String) : Bool :=
  pre.toList.isPrefixOf s.toList

/-- Python `sep.join(parts)`. -/
def pyJoin (sep : String) : List String → String
  | [] => ""
  | [x] => x
  | x :: y :: xs => x ++ sep ++ pyJoin sep (y :: xs)

/-- One `re.finditer` match: whole-match span `[ms, me)` plus captures. -/
structure Mtch where
  ms : Nat
  me : Nat
  caps : Caps
deriving DecidableEq

/-- `re.finditer` loop body: try each start position left to right; after a
match, resume scanning at its end (all the patterns here consume at least one
character, but a zero-width guard still advances the position). -/
def findIterGo (r : Re) (t : List Char) : Nat → Nat → List Mtch
  | 0, _ => []
  | fuel + 1, pos =>
    if pos > t.length then []
    else
      match (Re.runs t r pos []).head? with
      | some (j, caps) =>
          ⟨pos, j, caps⟩ :: findIterGo r t fuel (if pos < j then j else pos + 1)
      | none => findIterGo r t fuel (pos + 1)

/-- All matches of `r` in `t`, Python `re.finditer` semantics. -/
def findIter (r : Re) (t : List Char) : List Mtch :=
  findIterGo r t (t.length + 1) 0

/-- The substring of `t` at span `[s, e)`. -/
def sliceStr (t : List Char) (s e : Nat) : String :=
  String.mk ((t.drop s).take (e - s))

/-- Text captured by group `idx` of a match (the most recent capture wins). -/
def groupSlice (t : List Char) (m : Mtch) (idx : Nat) : Option String :=
  (m.caps.find? fun g => g.1 == idx).map fun g => sliceStr t g.2.1 g.2.2

/-! ### The extractor's patterns (`EntityExtractor.__init__`), transliterated.
Each is parameterized by `n`, the bound substituted for unbounded repetition
(instantiated with the text length). -/

/-- `[:\s\-]` -/
def sepCls : Re := .cls fun c => c == ':' || isSpaceChar c || c == '-'

/-- `[A-Za-z0-9\-_/]` -/
def codeCls : Re := .cls fun c => c.isAlphanum || c == '-' || c == '_' || c == '/'

/-- `[0-9]` / `\d` (ASCII) -/
def dCls : Re := .cls Char.isDigit

/-- `\s` -/
def wsCls : Re := .cls isSpaceChar

/-- `[0-9,]` -/
def digitCommaCls : Re := .cls fun c => c.isDigit || c == ','

/-- `\b(?:txn(?:id| _id| id)?|transaction(?:\s*id)?|txnid|utr|ref(?:erence)?\s*no\.?|ref)\b[:\s\-]*([A-Za-z0-9\-_/]{4,40})` -/
def txnRe1 (n : Nat) : Re :=
  rcat [.wordB,
        ralt [.seq (lit "txn") (.opt (ralt [lit "id", lit " _id", lit " id"])),
              .seq (lit "transaction") (.opt (.seq (star n wsCls) (lit "id"))),
              lit "txnid",
              lit "utr",
              rcat [lit "ref", .opt (lit "erence"), star n wsCls, lit "no", .opt (.chr '.')],
              lit "ref"],
        .wordB, star n sepCls, .group 1 (repRange 4 40 codeCls)]

/-- `\b(UTR|REF|TXN)\b[:\s\-]*([A-Za-z0-9\-_/]{4,40})` -/
def txnRe2 (n : Nat) : Re :=
  rcat [.wordB, .group 1 (ralt [lit "UTR", lit "REF", lit "TXN"]),
        .wordB, star n sepCls, .group 2 (repRange 4 40 codeCls)]

/-- `\b(?:account|acct|a\/c|account\s*no|account\s*number|acct\.?)\b[:\s\-]*([0-9]{4,24})` -/
def acctRe1 (n : Nat) : Re :=
  rcat [.wordB,
        ralt [lit "account", lit "acct", lit "a/c",
              rcat [lit "account", star n wsCls, lit "no"],
              rcat [lit "account", star n wsCls, lit "number"],
              .seq (lit "acct") (.opt (.chr '.'))],
        .wordB, star n sepCls, .group 1 (repRange 4 24 dCls)]

/-- `\bto\s+(?:account|acct|a\/c)\b[:\s\-]*([0-9]{4,24})` -/
def acctRe2 (n : Nat) : Re :=
  rcat [.wordB, lit "to", plus n wsCls,
        ralt [lit "account", lit "acct", lit "a/c"],
        .wordB, star n sepCls, .group 1 (repRange 4 24 dCls)]

/-- `\baccount(?:\s+ending)?\s*(?:no\.?|number)?\s*([0-9]{4,24})\b` -/
def acctRe3 (n : Nat) : Re :=
  rcat [.wordB, lit "account",
        .opt (.seq (plus n wsCls) (lit "ending")),
        star n wsCls,
        .opt (ralt [.seq (lit "no") (.opt (.chr '.')), lit "number"]),
        star n wsCls, .group 1 (repRange 4 24 dCls), .wordB]

/-- `\b(?:₹|\$|Rs\.?|INR|USD)\s*[0-9][0-9,]*(?:\.\d+)?\b` (the named group
`amt` spans the whole pattern, so `m.group(0)` and `m.span()` already cover it). -/
def amtRe1 (n : Nat) : Re :=
  rcat [.wordB,
        ralt [lit "₹", lit "$", .seq (lit "Rs") (.opt (.chr '.')), lit "INR", lit "USD"],
        star n wsCls, dCls, star n digitCommaCls,
        .opt (rcat [.chr '.', plus n dCls]),
        .wordB]

/-- `\b[0-9][0-9,]*(?:\.\d+)?\s*(?:rupees|rs|inr|usd|dollars)\b` -/
def amtRe2 (n : Nat) : Re :=
  rcat [.wordB, dCls, star n digitCommaCls,
        .opt (rcat [.chr '.', plus n dCls]),
        star n wsCls,
        ralt [lit "rupees", lit "rs", lit "inr", lit "usd", lit "dollars"],
        .wordB]

/-- `\b(Rs\.?|rs|INR|USD|usd|dollars|rupees)\b` (used by `_normalize_amount`'s
`re.sub`, flags=re.I). -/
def currWordRe (_n : Nat) : Re :=
  rcat [.wordB,
        .group 1 (ralt [.seq (lit "Rs") (.opt (.chr '.')), lit "rs", lit "INR",
                        lit "USD", lit "usd", lit "dollars", lit "rupees"]),
        .wordB]

/-- `\b[0-9]{2,20}\b` (`number_pattern`; defined in the source but never used
by `extract`). -/
def numberRe : Re := rcat [.wordB, repRange 2 20 dCls, .wordB]

/-! ### The extractor itself (`EntityExtractor`) -/

/-- An entity as the dialogue manager sees it: `{"entity": ..., "value": ...}`. -/
structure Entity where
  entity : String
  value : String
deriving DecidableEq

/-- An emitted entity together with the span the extractor reserved for it
(the span is internal in the source — `reserved_spans` — and recorded here so
the non-overlap invariant can be stated). -/
structure EFull where
  entity : String
  value : String
  span : Nat × Nat
deriving DecidableEq

/-- The two accumulators of `EntityExtractor.extract`: `reserved_spans` and `results`. -/
structure ExtState where
  reserved : List (Nat × Nat)
  results : List EFull
deriving DecidableEq

/-- The overlap test of `_reserve_span`: `[s,e)` overlaps `[a,b)` iff
`NOT (e <= a OR s >= b)`. -/
def overlapsB (x y : Nat × Nat) : Bool :=
  !(x.2 ≤ y.1 || x.1 ≥ y.2)

/-- `EntityExtractor._reserve_span`: returns `(True, unchanged)` if the span
overlaps a reserved one, else `(False, reserved + [(start, end)])`. -/
def reserveSpan (reserved : List (Nat × Nat)) (s e : Nat) : Bool × List (Nat × Nat) :=
  if reserved.any fun ab => overlapsB (s, e) ab then (true, reserved)
  else (false, reserved ++ [(s, e)])

/-- Phase 1 loop body of `extract`: transaction IDs.  Each candidate carries
the code from the match's groups (`groups[-1]`); `none` mirrors the
`if not groups: continue` guard, which skips before reserving. -/
def txnPhase : List (Mtch × Option String) → ExtState → ExtState
  | [], st => st
  | (m, code?) :: rest, st =>
    match code? with
    | none => txnPhase rest st
    | some code =>
      match reserveSpan st.reserved m.ms m.me with
      | (true, r') => txnPhase rest ⟨r', st.results⟩
      | (false, r') =>
          txnPhase rest ⟨r', st.results ++ [⟨"TXN_ID", pyStrip code, (m.ms, m.me)⟩]⟩

/-- Phase 2 loop body of `extract`: account numbers.  `num?` is `m.group(1)`;
`none`/empty mirrors the `except IndexError`/`if not num: continue` guards
(before reserving); the digit filter mirrors `re.sub(r'\D', '', num)` and the
final emptiness test happens after the span was reserved, as in the source. -/
def acctPhase : List (Mtch × Option String) → ExtState → ExtState
  | [], st => st
  | (m, num?) :: rest, st =>
    match num? with
    | none => acctPhase rest st
    | some num =>
      if num.isEmpty then acctPhase rest st
      else
        match reserveSpan st.reserved m.ms m.me with
        | (true, r') => acctPhase rest ⟨r', st.results⟩
        | (false, r') =>
            let numNorm := String.mk (num.toList.filter Char.isDigit)
            if numNorm.isEmpty then acctPhase rest ⟨r', st.results⟩
            else acctPhase rest ⟨r', st.results ++ [⟨"ACCOUNT_NUMBER", numNorm, (m.ms, m.me)⟩]⟩

/-- `EntityExtractor._normalize_amount`. -/
def normalize_amount (raw : String) : String :=
  let s := pyStrip raw
  let s := String.mk (s.toList.filter fun c => !(c == '₹' || c == ',' || c == '$'))
  let cs := s.toList
  let wordSpans := (findIter (currWordRe cs.length) cs).map fun m => (m.ms, m.me)
  let s := String.mk ((List.range cs.length).filterMap fun i =>
    if wordSpans.any fun ab => ab.1 ≤ i && i < ab.2 then none else cs.get? i)
  let s := pyReplace s "," ""
  pyStrip s

/-- Phase 3 loop body of `extract`: amounts.  `raw` is `m.group(0)`;
normalization happens after the span was reserved, as in the source. -/
def amtPhase (t : List Char) : List Mtch → ExtState → ExtState
  | [], st => st
  | m :: rest, st =>
    match reserveSpan st.reserved m.ms m.me with
    | (true, r') => amtPhase t rest ⟨r', st.results⟩
    | (false, r') =>
        let normalized := normalize_amount (sliceStr t m.ms m.me)
        if normalized.isEmpty then amtPhase t rest ⟨r', st.results⟩
        else amtPhase t rest ⟨r', st.results ++ [⟨"AMOUNT", normalized, (m.ms, m.me)⟩]⟩

/-- Phase-1 candidates: `txn_patterns` in order; the code is `groups[-1].strip()`
(group 1 for the first pattern, group 2 for the second). -/
def txnCandList (t : List Char) (n : Nat) : List (Mtch × Option String) :=
  ((findIter (txnRe1 n) t).map fun m => (m, groupSlice t m 1)) ++
  ((findIter (txnRe2 n) t).map fun m => (m, groupSlice t m 2))

/-- Phase-2 candidates: `account_patterns` in order; the value is `m.group(1)`. -/
def acctCandList (t : List Char) (n : Nat) : List (Mtch × Option String) :=
  ((findIter (acctRe1 n) t).map fun m => (m, groupSlice t m 1)) ++
  ((findIter (acctRe2 n) t).map fun m => (m, groupSlice t m 1)) ++
  ((findIter (acctRe3 n) t).map fun m => (m, groupSlice t m 1))

/-- Phase-3 candidates: `amount_patterns` in order. -/
def amtMatchList (t : List Char) (n : Nat) : List Mtch :=
  findIter (amtRe1 n) t ++ findIter (amtRe2 n) t

/-- `EntityExtractor.extract`, keeping the reserved span of each emitted
entity (the source returns only the `entity`/`value` fields; see `extract`). -/
def extractFull (text : String) : List EFull :=
  if text.toList.isEmpty then []
  else
    let t := text.toList
    let n := t.length
    let st1 := txnPhase (txnCandList t n) ⟨[], []⟩
    let st2 := acctPhase (acctCandList t n) st1
    let st3 := amtPhase t (amtMatchList t n) st2
    st3.results

/-- `EntityExtractor.extract` as the callers see it: a list of
`{"entity": ..., "value": ...}` records. -/
def extract (text : String) : List Entity :=
  (extractFull text).map fun r => ⟨r.entity, r.value⟩

/-! ### The dialogue state machine (`dialogue_manager/dialogue_handler.py`) -/

/-- Python exceptions that can escape the dialogue code: a failing logger
(database error inside `log_interaction`), `ValueError` from `int(...)`, and
`KeyError` from a missing slot. -/
inductive PyExc where
  | loggerError : PyExc
  | valueError : PyExc
  | keyError : String → PyExc
deriving DecidableEq

/-- One row of the `accounts` table as returned by `get_account` (the source
indexes it positionally; `balance` is index 3). -/
structure AccountRow where
  account_number : String
  user_name : String
  account_type : String
  balance : Int
deriving DecidableEq

/-- The external collaborators of the state machine: the banking gateway
(`database.bank_crud.get_account` / `list_accounts` / `transfer_money`, not
part of the core sources) and the interaction logger's database, abstracted
to whether its insert succeeds. -/
structure Gateway where
  get_account : String → Option AccountRow
  list_accounts : List (String × String)
  transfer_money : String → String → Int → String → String
  loggerOk : Bool

/-- `log_interaction`: inserts into `chat_history`; the write itself is not
modelled, only whether it raises (it has no try/except in the source).
`confidence` is the source's float constant in hundredths. -/
def log_interaction (gw : Gateway) (_user_text : String) (_intent : Option String)
    (_confidence : Nat) (_entities : List Entity) (_success : Bool) : Except PyExc Unit :=
  if gw.loggerOk then .ok () else .error .loggerError

/-- The slot dictionary of the transfer flow (`self.slots`); the other flows
never store slots.  An absent key is `none`. -/
structure Slots where
  from_account : Option String
  amount : Option Int
  password : Option String
deriving DecidableEq

/-- The empty slot dictionary `{}`. -/
def emptySlots : Slots := ⟨none, none, none⟩

/-- The per-conversation state of `DialogueManager`. -/
structure ConversationState where
  active_intent : Option String
  slots : Slots
  awaiting : Option String
  in_flow : Bool
deriving DecidableEq

/-- `DialogueManager.reset` (also the state right after `__init__`). -/
def resetState : ConversationState :=
  { active_intent := none, slots := emptySlots, awaiting := none, in_flow := false }

/-- A turn's outcome: the state as mutated so far, and either the returned
reply (`none` is the Python `None` out-of-scope signal) or a raised exception. -/
abbrev TurnResult := ConversationState × Except PyExc (Option String)

deriving instance DecidableEq for Except

/-- Python `int(...)` applied to an entity value string: optional surrounding
whitespace, optional sign, then at least one digit (underscore grouping is not
modelled). -/
def pyInt (s : String) : Option Int :=
  let cs := (pyStrip s).toList
  let (neg, ds) :=
    match cs with
    | '-' :: rest => (true, rest)
    | '+' :: rest => (false, rest)
    | _ => (false, cs)
  if ds.isEmpty || !ds.all Char.isDigit then none
  else
    let v : Nat := ds.foldl (fun acc c => acc * 10 + (c.toNat - 48)) 0
    some (if neg then -(v : Int) else (v : Int))

/-- Python `str.isdigit` (ASCII): nonempty and all digits. -/
def pyIsDigit (s : String) : Bool :=
  !s.toList.isEmpty && s.toList.all Char.isDigit

/-- `DialogueManager._parse_amount`: first run of digits of the text with
commas removed (`re.search(r"\d+", ...)`), as an int. -/
def parse_amount (text : String) : Option Int :=
  let cs := (pyReplace text "," "").toList
  match cs.dropWhile (fun c => !c.isDigit) with
  | [] => none
  | ds => some ((((ds.takeWhile Char.isDigit).foldl
      (fun acc c => acc * 10 + (c.toNat - 48)) 0 : Nat) : Int))

/-- The receiver parse of the transfer flow:
`user_text.split("(")[-1].replace(")", "")`. -/
def receiverParse (user_text : String) : String :=
  pyReplace ((pySplit user_text "(").getLastD "") ")" ""

/-- The cancel words of the global-cancel check. -/
def cancelWords : List String := ["cancel", "stop", "exit"]

/-- Steps 2–5 of `_handle_transfer` (entity-based slot filling, then the
account/amount/password prompts), reached when no `awaiting` branch returned.
`entityFill` is the `for e in entities` loop; on `int()` failure the slots
filled so far are kept and the exception propagates. -/
def entityFill (slots : Slots) : List Entity → Slots × Option PyExc
  | [] => (slots, none)
  | e :: rest =>
    if e.entity = "ACCOUNT_NUMBER" then
      entityFill { slots with from_account := some (pyStrip e.value) } rest
    else if e.entity = "AMOUNT" then
      match pyInt e.value with
      | none => (slots, some .valueError)
      | some n => entityFill { slots with amount := some n } rest
    else entityFill slots rest

/-- Steps 3–5 of `_handle_transfer` after entity filling. -/
def transferPrompts (gw : Gateway) (st : ConversationState) (user_text : String) : TurnResult :=
  if st.slots.from_account = none ∧ ¬ pyIsDigit user_text then
    (st, .ok (some "Please enter your account number."))
  else
    let st := if st.slots.from_account = none then
        { st with slots := { st.slots with from_account := some user_text } }
      else st
    match st.slots.from_account with
    | none => (st, .error (.keyError "from_account"))
    | some fa =>
      if (gw.get_account fa).isNone then
        ({ st with slots := { st.slots with from_account := none } },
         .ok (some "__ERROR__:Invalid account number. Please re-enter your account number."))
      else if st.slots.amount = none then
        ({ st with awaiting := some "amount" },
         .ok (some "How much amount do you want to transfer?"))
      else if st.slots.password = none then
        ({ st with awaiting := some "password" },
         .ok (some "Please enter your password to proceed."))
      else (st, .ok (some "Processing transfer..."))

/-- `DialogueManager._handle_transfer`. -/
def handle_transfer (gw : Gateway) (st : ConversationState) (entities : List Entity)
    (user_text : String) : TurnResult :=
  if st.awaiting = some "amount" then
    match parse_amount user_text with
    | none => (st, .ok (some "__ERROR__:Please enter a valid numeric amount."))
    | some amount =>
      let st := { st with slots := { st.slots with amount := some amount }, awaiting := none }
      let (slots, exc?) := entityFill st.slots entities
      let st := { st with slots := slots }
      match exc? with
      | some ex => (st, .error ex)
      | none => transferPrompts gw st user_text
  else if st.awaiting = some "password" then
    let st := { st with slots := { st.slots with password := some user_text }, awaiting := none }
    match st.slots.from_account with
    | none => (st, .error (.keyError "from_account"))
    | some fromAcc =>
      let receivers := (gw.list_accounts.filter fun au => au.1 ≠ fromAcc).map
        fun au => au.2 ++ " (" ++ au.1 ++ ")"
      ({ st with awaiting := some "receiver" },
       .ok (some ("Select receiver account:\n" ++ pyJoin "\n" receivers)))
  else if st.awaiting = some "receiver" then
    let to_acc := receiverParse user_text
    match st.slots.from_account with
    | none => (st, .error (.keyError "from_account"))
    | some fa =>
      match st.slots.amount with
      | none => (st, .error (.keyError "amount"))
      | some amt =>
        match st.slots.password with
        | none => (st, .error (.keyError "password"))
        | some pw =>
          let result := gw.transfer_money fa to_acc amt pw
          let success := pyStartsWith result "✅"
          match log_interaction gw user_text (some "transfer_money") 95 entities success with
          | .error e => (st, .error e)
          | .ok _ =>
            if pyStartsWith result "❌" then
              (resetState, .ok (some ("__ERROR__:" ++ pyReplace result "❌ " "")))
            else (resetState, .ok (some "✅ Transfer Successful"))
  else
    let (slots, exc?) := entityFill st.slots entities
    let st := { st with slots := slots }
    match exc? with
    | some ex => (st, .error ex)
    | none => transferPrompts gw st user_text

/-- The `for e in entities` loop of `_handle_check_balance` plus the final
prompt: acts on the first `ACCOUNT_NUMBER` entity. -/
def balanceEntityLoop (gw : Gateway) (st : ConversationState) (user_text : String) :
    List Entity → List Entity → TurnResult
  | [], allEntities =>
    let _ := allEntities
    ({ st with awaiting := some "account" },
     .ok (some "Please provide your account number to check balance."))
  | e :: rest, allEntities =>
    if e.entity = "ACCOUNT_NUMBER" then
      match gw.get_account e.value with
      | none =>
        match log_interaction gw user_text (some "check_balance") 90 allEntities false with
        | .error ex => (st, .error ex)
        | .ok _ => (st, .ok (some "__ERROR__:Invalid account number."))
      | some acc =>
        match log_interaction gw user_text (some "check_balance") 95 allEntities true with
        | .error ex => (st, .error ex)
        | .ok _ => (resetState, .ok (some ("💰 Your account balance is ₹" ++ toString acc.balance)))
    else balanceEntityLoop gw st user_text rest allEntities

/-- `DialogueManager._handle_check_balance`. -/
def handle_check_balance (gw : Gateway) (st : ConversationState) (entities : List Entity)
    (user_text : String) : TurnResult :=
  if st.awaiting = some "account" then
    let acc_no := pyStrip user_text
    match gw.get_account acc_no with
    | none =>
      match log_interaction gw user_text (some "check_balance") 90 entities false with
      | .error ex => (st, .error ex)
      | .ok _ => (st, .ok (some "__ERROR__:Invalid account number. Please re-enter."))
    | some acc =>
      match log_interaction gw user_text (some "check_balance") 95 entities true with
      | .error ex => (st, .error ex)
      | .ok _ => (resetState, .ok (some ("💰 Your account balance is ₹" ++ toString acc.balance)))
  else balanceEntityLoop gw st user_text entities entities

/-- The `for e in entities` loop of `_handle_card_block` plus the final
prompt: acts on the first `CARD_TYPE` entity. -/
def cardEntityLoop (gw : Gateway) (st : ConversationState) (user_text : String) :
    List Entity → List Entity → TurnResult
  | [], allEntities =>
    let _ := allEntities
    ({ st with awaiting := some "card_type" },
     .ok (some "Please provide your card type to block (debit / credit)."))
  | e :: rest, allEntities =>
    if e.entity = "CARD_TYPE" then
      match log_interaction gw user_text (some "card_block") 95 allEntities true with
      | .error ex => (st, .error ex)
      | .ok _ =>
        (resetState, .ok (some ("🔒 Your " ++ e.value ++ " card has been blocked successfully.")))
    else cardEntityLoop gw st user_text rest allEntities

/-- `DialogueManager._handle_card_block`. -/
def handle_card_block (gw : Gateway) (st : ConversationState) (entities : List Entity)
    (user_text : String) : TurnResult :=
  if st.awaiting = some "card_type" then
    let card_type := pyLower user_text
    if ¬ (card_type = "debit" ∨ card_type = "credit") then
      (st, .ok (some "__ERROR__:Please enter debit or credit."))
    else
      match log_interaction gw user_text (some "card_block") 95 entities true with
      | .error ex => (st, .error ex)
      | .ok _ =>
        (resetState, .ok (some ("🔒 Your " ++ card_type ++ " card has been blocked successfully.")))
  else cardEntityLoop gw st user_text entities entities

/-- `DialogueManager.handle`: the per-turn entry point. -/
def handle (gw : Gateway) (st : ConversationState) (intent0 : Option String)
    (entities : List Entity) (user_text0 : String) : TurnResult :=
  let user_text := pyStrip user_text0
  -- -------- GLOBAL CANCEL --------
  if pyLower user_text ∈ cancelWords then
    (resetState, .ok (some "❌ Operation cancelled. How else can I help you?"))
  else
    -- -------- INTENT LOCK -------- (`original_intent` was saved before)
    let intent := if st.in_flow then st.active_intent else intent0
    let st1 := if st.in_flow then st else { resetState with active_intent := intent0 }
    -- -------- OUT OF SCOPE DETECTION -------- (uses the original intent)
    if intent0 = some "out_of_scope" then
      (resetState, .ok none)
    else if intent = some "greet" then
      match log_interaction gw user_text intent 100 entities true with
      | .error e => (st1, .error e)
      | .ok _ => (st1, .ok (some "Hello 👋 How can I help you today?"))
    else if intent = some "transfer_money" then
      handle_transfer gw { st1 with in_flow := true } entities user_text
    else if intent = some "check_balance" then
      handle_check_balance gw { st1 with in_flow := true } entities user_text
    else if intent = some "card_block" then
      handle_card_block gw { st1 with in_flow := true } entities user_text
    else
      match log_interaction gw user_text intent 50 entities false with
      | .error e => (st1, .error e)
      | .ok _ => (st1, .ok (some "Sorry, I didn\x27t understand. Please try again."))

/-! ### Shared concrete test fixtures -/

/-- A sample gateway: one known account, one other account, a transfer that
always succeeds, a working logger. -/
def gwSample : Gateway :=
  { get_account := fun a =>
      if a = "1234567890" then some ⟨"1234567890", "me", "savings", 9000⟩ else none,
    list_accounts := [("1234567890", "me"), ("9876543210", "ramesh")],
    transfer_money := fun _ _ _ _ => "✅ done",
    loggerOk := true }

/-- A mid-transfer conversation state (awaiting the amount). -/
def stMidFlow : ConversationState :=
  { active_intent := some "transfer_money",
    slots := { from_account := some "1234567890", amount := none, password := none },
    awaiting := some "amount", in_flow := true }

/-! ### Claim theorems -/

/-- C2: for every conversation state and every turn whose trimmed text,
lowercased, is one of "cancel"/"stop"/"exit", `handle` resets the state and
returns the fixed cancellation acknowledgment, regardless of the classified
intent, the entities, the gateway, or the current flow state — the check
precedes intent locking and everything else. -/
theorem global_cancel_always_wins (gw : Gateway) (st : ConversationState)
    (intent : Option String) (entities : List Entity) (text : String)
    (h : pyLower (pyStrip text) ∈ cancelWords) :
    handle gw st intent entities text =
      (resetState, .ok (some "❌ Operation cancelled. How else can I help you?")) := by
  unfold handle
  simp [h]

/-- Witness for C2: cancelling with "  CANCEL " while mid-transfer, with the
classifier reporting an unrelated intent. -/
theorem global_cancel_always_wins_witness :
    (pyLower (pyStrip "  CANCEL ") ∈ cancelWords) ∧
    handle gwSample stMidFlow (some "card_block") [⟨"AMOUNT", "5"⟩] "  CANCEL " =
      (resetState, .ok (some "❌ Operation cancelled. How else can I help you?")) :=
  ⟨by decide, global_cancel_always_wins gwSample stMidFlow (some "card_block")
    [⟨"AMOUNT", "5"⟩] "  CANCEL " (by decide)⟩

/-- C3 counterexample: from a mid-flow state (locked on `transfer_money`),
varying only the classifier's reported intent for the turn does change
`active_intent`: a "greet" classification leaves it locked, while an
"out_of_scope" classification resets it to `none` (the out-of-scope check
uses the original, pre-override intent). -/
theorem intent_lock_cex :
    (handle gwSample stMidFlow (some "greet") [] "hello").1.active_intent
      = some "transfer_money" ∧
    (handle gwSample stMidFlow (some "out_of_scope") [] "hello").1.active_intent
      = none := by
  constructor <;> decide

/-- C3 amended: once `in_flow` is true, for a non-cancel turn, varying the
classifier's reported intent among intents other than "out_of_scope" changes
nothing: the whole turn result is independent of it (the effective intent is
forced to `active_intent`).  An "out_of_scope" classification, however, is
checked on the original intent and resets the flow. -/
theorem intent_lock_amended (gw : Gateway) (st : ConversationState)
    (entities : List Entity) (text : String) (i1 i2 : Option String)
    (hf : st.in_flow = true) (hc : ¬ (pyLower (pyStrip text) ∈ cancelWords))
    (h1 : i1 ≠ some "out_of_scope") (h2 : i2 ≠ some "out_of_scope") :
    handle gw st i1 entities text = handle gw st i2 entities text := by
  unfold handle
  simp [hc, hf, h1, h2]

/-- Witness for C3 amended: mid-flow, a "greet" and a "check_balance"
classification produce identical outcomes. -/
theorem intent_lock_amended_witness :
    stMidFlow.in_flow = true ∧
    handle gwSample stMidFlow (some "greet") [] "77" =
      handle gwSample stMidFlow (some "check_balance") [] "77" :=
  ⟨rfl, intent_lock_amended gwSample stMidFlow [] "77" (some "greet")
    (some "check_balance") rfl (by decide) (by decide) (by decide)⟩

/-! ### Reachable states and the state invariant (C4) -/

/-- States reachable from a fresh `DialogueManager` by any sequence of turns
(any gateway behavior, intents, entities and texts — including turns that
raise). -/
inductive Reachable : ConversationState → Prop where
  | init : Reachable resetState
  | step (gw : Gateway) (i : Option String) (e : List Entity) (t : String)
      {s : ConversationState} : Reachable s → Reachable (handle gw s i e t).1

/-- The part of the claimed state invariant that actually holds: `in_flow`
implies a locked intent, `awaiting` implies `in_flow`, and slots are only
ever populated while a flow is active (so a change of `active_intent`, which
always passes through `reset`, starts from empty slots). -/
def StateInv (s : ConversationState) : Prop :=
  (s.in_flow = true → s.active_intent ≠ none) ∧
  (s.awaiting ≠ none → s.in_flow = true) ∧
  (s.slots ≠ emptySlots → s.in_flow = true)

theorem stateInv_reset : StateInv resetState := by
  refine ⟨?_, ?_, ?_⟩ <;> simp [resetState, emptySlots]

theorem stateInv_of_inflow {s : ConversationState} (h1 : s.in_flow = true)
    (h2 : s.active_intent ≠ none) : StateInv s :=
  ⟨fun _ => h2, fun _ => h1, fun _ => h1⟩

theorem transferPrompts_flow (gw : Gateway) (st : ConversationState) (u : String) :
    (transferPrompts gw st u).1.in_flow = st.in_flow ∧
    (transferPrompts gw st u).1.active_intent = st.active_intent := by
  unfold transferPrompts
  repeat' (first | split | dsimp only)
  all_goals exact ⟨rfl, rfl⟩

theorem handle_transfer_state (gw : Gateway) (st : ConversationState)
    (e : List Entity) (u : String) :
    (handle_transfer gw st e u).1 = resetState ∨
    ((handle_transfer gw st e u).1.in_flow = st.in_flow ∧
     (handle_transfer gw st e u).1.active_intent = st.active_intent) := by
  unfold handle_transfer
  repeat' (first | split | dsimp only)
  all_goals first
    | (left; rfl)
    | (right; exact ⟨rfl, rfl⟩)
    | (right; exact transferPrompts_flow gw _ u)

theorem balanceEntityLoop_state (gw : Gateway) (st : ConversationState) (u : String)
    (es all : List Entity) :
    (balanceEntityLoop gw st u es all).1 = resetState ∨
    ((balanceEntityLoop gw st u es all).1.in_flow = st.in_flow ∧
     (balanceEntityLoop gw st u es all).1.active_intent = st.active_intent) := by
  induction es with
  | nil => right; exact ⟨rfl, rfl⟩
  | cons e rest ih =>
    unfold balanceEntityLoop
    repeat' (first | split | dsimp only)
    all_goals first
      | (left; rfl)
      | (right; exact ⟨rfl, rfl⟩)
      | exact ih

theorem handle_check_balance_state (gw : Gateway) (st : ConversationState)
    (e : List Entity) (u : String) :
    (handle_check_balance gw st e u).1 = resetState ∨
    ((handle_check_balance gw st e u).1.in_flow = st.in_flow ∧
     (handle_check_balance gw st e u).1.active_intent = st.active_intent) := by
  unfold handle_check_balance
  repeat' (first | split | dsimp only)
  all_goals first
    | (left; rfl)
    | (right; exact ⟨rfl, rfl⟩)
    | exact balanceEntityLoop_state gw st u e e

theorem cardEntityLoop_state (gw : Gateway) (st : ConversationState) (u : String)
    (es all : List Entity) :
    (cardEntityLoop gw st u es all).1 = resetState ∨
    ((cardEntityLoop gw st u es all).1.in_flow = st.in_flow ∧
     (cardEntityLoop gw st u es all).1.active_intent = st.active_intent) := by
  induction es with
  | nil => right; exact ⟨rfl, rfl⟩
  | cons e rest ih =>
    unfold cardEntityLoop
    repeat' (first | split | dsimp only)
    all_goals first
      | (left; rfl)
      | (right; exact ⟨rfl, rfl⟩)
      | exact ih

theorem handle_card_block_state (gw : Gateway) (st : ConversationState)
    (e : List Entity) (u : String) :
    (handle_card_block gw st e u).1 = resetState ∨
    ((handle_card_block gw st e u).1.in_flow = st.in_flow ∧
     (handle_card_block gw st e u).1.active_intent = st.active_intent) := by
  unfold handle_card_block
  repeat' (first | split | dsimp only)
  all_goals first
    | (left; rfl)
    | (right; exact ⟨rfl, rfl⟩)
    | exact cardEntityLoop_state gw st u e e

/-- One turn preserves the state invariant. -/
theorem handle_preserves_stateInv (gw : Gateway) (i : Option String)
    (e : List Entity) (t : String) {s : ConversationState} (h : StateInv s) :
    StateInv (handle gw s i e t).1 := by
  have hflow : ∀ (st' : ConversationState) (x : TurnResult),
      st'.in_flow = true → st'.active_intent ≠ none →
      (x.1 = resetState ∨ (x.1.in_flow = st'.in_flow ∧ x.1.active_intent = st'.active_intent)) →
      StateInv x.1 := by
    rintro st' x hf ha (hr | ⟨h1, h2⟩)
    · rw [hr]; exact stateInv_reset
    · exact stateInv_of_inflow (h1.trans hf) (h2 ▸ ha)
  unfold handle
  by_cases hc : pyLower (pyStrip t) ∈ cancelWords
  · simp only [hc, if_pos]; exact stateInv_reset
  · simp only [hc, if_neg, not_false_iff]
    by_cases hoos : i = some "out_of_scope"
    · simp only [hoos, if_pos]
      exact stateInv_reset
    · simp only [hoos, if_neg, not_false_iff]
      by_cases hf : s.in_flow
      · have hai : s.active_intent ≠ none := h.1 hf
        simp only [hf, if_pos]
        split
        · -- greet
          split <;> exact ⟨fun h' => h.1 h', h.2.1, h.2.2⟩
        · split
          · -- transfer
            rename_i hint
            refine hflow { s with in_flow := true } _ rfl ?_ (handle_transfer_state gw _ e _)
            simpa using hai
          · split
            · refine hflow { s with in_flow := true } _ rfl ?_
                (handle_check_balance_state gw _ e _)
              simpa using hai
            · split
              · refine hflow { s with in_flow := true } _ rfl ?_
                  (handle_card_block_state gw _ e _)
                simpa using hai
              · split <;> exact ⟨fun h' => h.1 h', h.2.1, h.2.2⟩
      · simp only [hf, if_neg, Bool.not_eq_true]
        split
        · -- greet
          split <;>
            exact ⟨by simp [resetState], by simp [resetState], by simp [resetState, emptySlots]⟩
        · split
          · refine hflow { { resetState with active_intent := i } with in_flow := true } _
              rfl ?_ (handle_transfer_state gw _ e _)
            rename_i hint
            simp [hint]
          · split
            · refine hflow { { resetState with active_intent := i } with in_flow := true } _
                rfl ?_ (handle_check_balance_state gw _ e _)
              rename_i hint
              simp [hint]
            · split
              · refine hflow { { resetState with active_intent := i } with in_flow := true } _
                  rfl ?_ (handle_card_block_state gw _ e _)
                rename_i hint
                simp [hint]
              · split <;>
                  exact ⟨by simp [resetState], by simp [resetState],
                         by simp [resetState, emptySlots]⟩

/-- C4 counterexample: the claimed biconditional `in_flow ↔ active_intent ≠
None` fails: a single "greet" turn from the initial state leaves
`active_intent = some "greet"` while `in_flow` stays `false` (the intent-lock
step assigns `active_intent` before dispatching, and greet never sets
`in_flow`). -/
theorem state_invariant_cex :
    (handle gwSample resetState (some "greet") [] "hi").1.active_intent = some "greet" ∧
    (handle gwSample resetState (some "greet") [] "hi").1.in_flow = false := by
  constructor <;> decide

/-- C4 amended: after any sequence of `handle` calls from the initial state,
`in_flow = true` implies `active_intent ≠ none` (the converse fails: greet
and unrecognized intents set `active_intent` without `in_flow`); `awaiting`
is non-None only while `in_flow`; and slots are non-empty only while
`in_flow` — every change of `active_intent` passes through `reset`, so it
starts from cleared slots. -/
theorem state_invariant_amended {s : ConversationState} (h : Reachable s) :
    StateInv s := by
  induction h with
  | init => exact stateInv_reset
  | step gw i e t _ ih => exact handle_preserves_stateInv gw i e t ih

/-- Witness for C4 amended: the state after one real transfer-opening turn. -/
theorem state_invariant_amended_witness :
    StateInv (handle gwSample resetState (some "transfer_money") [] "1234567890").1 :=
  state_invariant_amended
    (Reachable.step gwSample (some "transfer_money") [] "1234567890" Reachable.init)

/-- C5 counterexample: exceptions do cross the public boundary.
`log_interaction` has no try/except, so a logger failure on a plain greet
turn propagates out of `handle` instead of producing a `Reply`. -/
theorem no_exception_cex :
    (handle { gwSample with loggerOk := false } resetState (some "greet") [] "hi").2 =
      .error .loggerError := by
  decide

/-- C5 amended: `handle` returns a `Reply` only when the collaborator calls
and internal coercions succeed; in particular a failure inside the
interaction logger is NOT suppressed — on any non-cancel greet turn with a
failing logger, the turn raises instead of replying. -/
theorem logger_failure_propagates (gw : Gateway) (st : ConversationState)
    (entities : List Entity) (t : String)
    (hlog : gw.loggerOk = false) (hf : st.in_flow = false)
    (hc : ¬ (pyLower (pyStrip t) ∈ cancelWords)) :
    (handle gw st (some "greet") entities t).2 = .error .loggerError := by
  unfold handle
  rw [if_neg hc]
  simp [hf, log_interaction, hlog]

/-- Witness for C5 amended. -/
theorem logger_failure_propagates_witness :
    ({ gwSample with loggerOk := false } : Gateway).loggerOk = false ∧
    (handle { gwSample with loggerOk := false } resetState (some "greet") [] "hello").2 =
      .error .loggerError :=
  ⟨rfl, logger_failure_propagates { gwSample with loggerOk := false } resetState [] "hello"
    rfl rfl (by decide)⟩

/-- C9: at the receiver step the machine parses the receiver as
`user_text.split("(")[-1].replace(")", "")` (`receiverParse`) and submits it
to `transfer_money` together with the stored slots, for every raw text and
every gateway — no check against the displayed candidate list (or anything
else) is performed. -/
theorem receiver_step_submits_blindly (gw : Gateway) (st : ConversationState)
    (entities : List Entity) (u : String) (f : String) (a : Int) (p : String)
    (hw : st.awaiting = some "receiver") (hf : st.slots.from_account = some f)
    (ha : st.slots.amount = some a) (hp : st.slots.password = some p)
    (hlog : gw.loggerOk = true) :
    handle_transfer gw st entities u =
      (if pyStartsWith (gw.transfer_money f (receiverParse u) a p) "❌" then
        (resetState,
         .ok (some ("__ERROR__:" ++ pyReplace (gw.transfer_money f (receiverParse u) a p) "❌ " "")))
      else (resetState, .ok (some "✅ Transfer Successful"))) := by
  unfold handle_transfer
  rw [hw]
  simp [hf, ha, hp, log_interaction, hlog]

/-- A mid-transfer state at the receiver step whose stored sender is "111". -/
def stReceiver : ConversationState :=
  { active_intent := some "transfer_money",
    slots := { from_account := some "111", amount := some 50, password := some "pw" },
    awaiting := some "receiver", in_flow := true }

/-- Witness for C9: a selection text whose parenthesized account equals the
sender's own account is still submitted and the transfer reported successful. -/
theorem receiver_step_submits_blindly_witness :
    receiverParse "Evil (111)" = "111" ∧
    handle_transfer gwSample stReceiver [] "Evil (111)" =
      (resetState, .ok (some "✅ Transfer Successful")) :=
  ⟨by decide,
   (receiver_step_submits_blindly gwSample stReceiver [] "Evil (111)" "111" 50 "pw"
      rfl rfl rfl rfl rfl).trans (by decide)⟩

/-- A string starting with the success marker does not start with the failure
marker. -/
theorem pyStartsWith_success_not_failure (r : String)
    (h : pyStartsWith r "✅" = true) : pyStartsWith r "❌" = false := by
  unfold pyStartsWith at h ⊢
  rw [List.isPrefixOf_iff_prefix] at h
  by_contra hne
  rw [Bool.not_eq_false, List.isPrefixOf_iff_prefix] at hne
  obtain ⟨t1, h1⟩ := h
  obtain ⟨t2, h2⟩ := hne
  rw [← h1] at h2
  have : ("✅".toList ++ t1).head? = ("❌".toList ++ t2).head? := by rw [h2]
  simp at this

/-- State after turn 1 of the transfer scenario. -/
def transferS1 : ConversationState :=
  { active_intent := some "transfer_money",
    slots := { from_account := some "1234567890", amount := none, password := none },
    awaiting := some "amount", in_flow := true }

/-- State after turn 2 of the transfer scenario. -/
def transferS2 : ConversationState :=
  { active_intent := some "transfer_money",
    slots := { from_account := some "1234567890", amount := some 500, password := none },
    awaiting := some "password", in_flow := true }

/-- State after turn 3 of the transfer scenario. -/
def transferS3 : ConversationState :=
  { active_intent := some "transfer_money",
    slots := { from_account := some "1234567890", amount := some 500, password := some "secret" },
    awaiting := some "receiver", in_flow := true }

/-- C1: the four-turn transfer scenario.  Whenever the gateway knows account
"1234567890", the transfer call returns a success-marked string and the
logger works, then from the idle state: turn 1 (intent `transfer_money`,
text "1234567890", no entities) stores the sender and prompts for the amount
with `awaiting = amount`; turn 2 ("500") stores `amount = 500` and prompts
for the password with `awaiting = password`; turn 3 ("secret") stores the
password verbatim, lists the receiver candidates excluding "1234567890" and
sets `awaiting = receiver`; turn 4, with any non-cancel text whose
parenthesized parse is "9876543210", calls
`transfer_money("1234567890", "9876543210", 500, "secret")`, resets the
state to idle and replies with the fixed success message.  The classified
intents of turns 2–4 are arbitrary non-out-of-scope values (the lock makes
them irrelevant). -/
theorem transfer_flow_scenario (gw : Gateway) (acc : AccountRow)
    (i2 i3 i4 : Option String) (t4 : String)
    (hacc : gw.get_account "1234567890" = some acc)
    (hxfer : pyStartsWith (gw.transfer_money "1234567890" "9876543210" 500 "secret") "✅" = true)
    (hlog : gw.loggerOk = true)
    (hi2 : i2 ≠ some "out_of_scope") (hi3 : i3 ≠ some "out_of_scope")
    (hi4 : i4 ≠ some "out_of_scope")
    (ht4a : ¬ (pyLower (pyStrip t4) ∈ cancelWords))
    (ht4b : receiverParse (pyStrip t4) = "9876543210") :
    handle gw resetState (some "transfer_money") [] "1234567890" =
      (transferS1, .ok (some "How much amount do you want to transfer?")) ∧
    handle gw transferS1 i2 [] "500" =
      (transferS2, .ok (some "Please enter your password to proceed.")) ∧
    handle gw transferS2 i3 [] "secret" =
      (transferS3, .ok (some ("Select receiver account:\n" ++ pyJoin "\n"
        ((gw.list_accounts.filter fun au => au.1 ≠ "1234567890").map
          fun au => au.2 ++ " (" ++ au.1 ++ ")")))) ∧
    handle gw transferS3 i4 [] t4 = (resetState, .ok (some "✅ Transfer Successful")) := by
  have hnotfail := pyStartsWith_success_not_failure _ hxfer
  refine ⟨?_, ?_, ?_, ?_⟩
  · unfold handle handle_transfer transferPrompts
    rw [if_neg (by decide)]
    simp [resetState, entityFill, hacc, transferS1, emptySlots,
      (by decide : pyStrip "1234567890" = "1234567890"),
      (by decide : pyIsDigit "1234567890" = true)]
  · unfold handle handle_transfer transferPrompts
    rw [if_neg (by decide)]
    simp [transferS1, transferS2, hi2, entityFill, hacc,
      (by decide : pyStrip "500" = "500"),
      (by decide : parse_amount "500" = some 500)]
  · unfold handle handle_transfer
    rw [if_neg (by decide)]
    simp [transferS2, transferS3, hi3, (by decide : pyStrip "secret" = "secret")]
  · unfold handle handle_transfer
    rw [if_neg ht4a]
    simp [transferS3, hi4, ht4b, log_interaction, hlog, hnotfail]

/-! ### The extractor's span-reservation invariant (C6, C7, C10) -/

theorem overlapsB_comm (x y : Nat × Nat) : overlapsB x y = overlapsB y x := by
  unfold overlapsB
  by_cases h1 : x.2 ≤ y.1 <;> by_cases h2 : x.1 ≥ y.2 <;>
    by_cases h3 : y.2 ≤ x.1 <;> by_cases h4 : y.1 ≥ x.2 <;>
      simp [h1, h2, h3, h4]

theorem reserveSpan_false {reserved : List (Nat × Nat)} {s e : Nat}
    (h : (reserveSpan reserved s e).1 = false) :
    (reserveSpan reserved s e).2 = reserved ++ [(s, e)] ∧
    ∀ ab ∈ reserved, overlapsB (s, e) ab = false := by
  unfold reserveSpan at h ⊢
  split_ifs at h ⊢ with hov
  refine ⟨rfl, fun ab hab => ?_⟩
  by_contra hne
  rw [Bool.not_eq_false] at hne
  exact hov (List.any_eq_true.2 ⟨ab, hab, hne⟩)

/-- The invariant carried through the three phases of `extract`: emitted
entities are pairwise non-overlapping and every emitted span was reserved. -/
def ExtInv (st : ExtState) : Prop :=
  st.results.Pairwise (fun a b => overlapsB a.span b.span = false) ∧
  ∀ r ∈ st.results, r.span ∈ st.reserved

theorem ExtInv_skip {st : ExtState} (h : ExtInv st) (s e : Nat) :
    ExtInv ⟨(reserveSpan st.reserved s e).2, st.results⟩ := by
  refine ⟨h.1, fun x hx => ?_⟩
  unfold reserveSpan
  split_ifs
  · exact h.2 x hx
  · exact List.mem_append_left _ (h.2 x hx)

theorem ExtInv_emit {st : ExtState} (h : ExtInv st) {s e : Nat} (r : EFull)
    (hspan : r.span = (s, e)) (hres : (reserveSpan st.reserved s e).1 = false) :
    ExtInv ⟨(reserveSpan st.reserved s e).2, st.results ++ [r]⟩ := by
  obtain ⟨heq, hall⟩ := reserveSpan_false hres
  constructor
  · rw [List.pairwise_append]
    refine ⟨h.1, List.pairwise_singleton _ _, fun a ha b hb => ?_⟩
    rw [List.mem_singleton] at hb
    subst hb
    rw [hspan, overlapsB_comm]
    exact hall a.span (h.2 a ha)
  · intro x hx
    rw [heq]
    rcases List.mem_append.1 hx with hx | hx
    · exact List.mem_append_left _ (h.2 x hx)
    · rw [List.mem_singleton] at hx
      subst hx
      rw [hspan]
      exact List.mem_append_right _ (by simp)

theorem txnPhase_inv (cands : List (Mtch × Option String)) (st : ExtState)
    (h : ExtInv st) : ExtInv (txnPhase cands st) := by
  induction cands generalizing st with
  | nil => exact h
  | cons mc rest ih =>
    obtain ⟨m, code?⟩ := mc
    unfold txnPhase
    rcases code? with _ | code
    · exact ih st h
    · dsimp only
      rcases hres : reserveSpan st.reserved m.ms m.me with ⟨b, r'⟩
      cases b
      · dsimp only
        have := ExtInv_emit h (r := ⟨"TXN_ID", pyStrip code, (m.ms, m.me)⟩) rfl
          (by rw [hres])
        rw [hres] at this
        exact ih _ this
      · dsimp only
        have := ExtInv_skip h m.ms m.me
        rw [hres] at this
        exact ih _ this

theorem acctPhase_inv (cands : List (Mtch × Option String)) (st : ExtState)
    (h : ExtInv st) : ExtInv (acctPhase cands st) := by
  induction cands generalizing st with
  | nil => exact h
  | cons mc rest ih =>
    obtain ⟨m, num?⟩ := mc
    unfold acctPhase
    rcases num? with _ | num
    · exact ih st h
    · dsimp only
      by_cases hemp : num.isEmpty
      · rw [if_pos hemp]
        exact ih st h
      · rw [if_neg hemp]
        rcases hres : reserveSpan st.reserved m.ms m.me with ⟨b, r'⟩
        cases b
        · dsimp only
          by_cases hnorm : (String.mk (num.toList.filter Char.isDigit)).isEmpty
          · rw [if_pos hnorm]
            have := ExtInv_skip h m.ms m.me
            rw [hres] at this
            exact ih _ this
          · rw [if_neg hnorm]
            have := ExtInv_emit h
              (r := ⟨"ACCOUNT_NUMBER", String.mk (num.toList.filter Char.isDigit), (m.ms, m.me)⟩)
              rfl (by rw [hres])
            rw [hres] at this
            exact ih _ this
        · dsimp only
          have := ExtInv_skip h m.ms m.me
          rw [hres] at this
          exact ih _ this

theorem amtPhase_inv (t : List Char) (cands : List Mtch) (st : ExtState)
    (h : ExtInv st) : ExtInv (amtPhase t cands st) := by
  induction cands generalizing st with
  | nil => exact h
  | cons m rest ih =>
    unfold amtPhase
    rcases hres : reserveSpan st.reserved m.ms m.me with ⟨b, r'⟩
    cases b
    · dsimp only
      by_cases hnorm : (normalize_amount (sliceStr t m.ms m.me)).isEmpty
      · rw [if_pos hnorm]
        have := ExtInv_skip h m.ms m.me
        rw [hres] at this
        exact ih _ this
      · rw [if_neg hnorm]
        have := ExtInv_emit h
          (r := ⟨"AMOUNT", normalize_amount (sliceStr t m.ms m.me), (m.ms, m.me)⟩)
          rfl (by rw [hres])
        rw [hres] at this
        exact ih _ this
    · dsimp only
      have := ExtInv_skip h m.ms m.me
      rw [hres] at this
      exact ih _ this

theorem extractFull_pairwise (text : String) :
    (extractFull text).Pairwise (fun a b => overlapsB a.span b.span = false) := by
  unfold extractFull
  split_ifs with hemp
  · exact List.Pairwise.nil
  · dsimp only
    exact (amtPhase_inv _ _ _ (acctPhase_inv _ _ (txnPhase_inv _ _
      ⟨List.Pairwise.nil, by simp⟩))).1

/-! ### Provenance: each emitted entity is one of the pattern matches,
with its exact span (dropped, never trimmed). -/

theorem txnPhase_results (cands : List (Mtch × Option String)) (st : ExtState) :
    ∀ r ∈ (txnPhase cands st).results,
      r ∈ st.results ∨ (r.entity = "TXN_ID" ∧ ∃ mc ∈ cands, r.span = (mc.1.ms, mc.1.me)) := by
  induction cands generalizing st with
  | nil => exact fun r hr => Or.inl hr
  | cons mc rest ih =>
    obtain ⟨m, code?⟩ := mc
    unfold txnPhase
    rcases code? with _ | code
    · intro r hr
      rcases ih st r hr with hin | ⟨he, mc', hmc', hsp⟩
      · exact Or.inl hin
      · exact Or.inr ⟨he, mc', List.mem_cons_of_mem _ hmc', hsp⟩
    · dsimp only
      rcases hres : reserveSpan st.reserved m.ms m.me with ⟨b, r'⟩
      cases b <;> dsimp only <;> intro r hr
      · rcases ih _ r hr with hin | ⟨he, mc', hmc', hsp⟩
        · rcases List.mem_append.1 hin with hin | hin
          · exact Or.inl hin
          · rw [List.mem_singleton] at hin
            subst hin
            exact Or.inr ⟨rfl, (m, some code), List.mem_cons_self _ _, rfl⟩
        · exact Or.inr ⟨he, mc', List.mem_cons_of_mem _ hmc', hsp⟩
      · rcases ih _ r hr with hin | ⟨he, mc', hmc', hsp⟩
        · exact Or.inl hin
        · exact Or.inr ⟨he, mc', List.mem_cons_of_mem _ hmc', hsp⟩

theorem acctPhase_results (cands : List (Mtch × Option String)) (st : ExtState) :
    ∀ r ∈ (acctPhase cands st).results,
      r ∈ st.results ∨
      (r.entity = "ACCOUNT_NUMBER" ∧ ∃ mc ∈ cands, r.span = (mc.1.ms, mc.1.me)) := by
  induction cands generalizing st with
  | nil => exact fun r hr => Or.inl hr
  | cons mc rest ih =>
    obtain ⟨m, num?⟩ := mc
    unfold acctPhase
    rcases num? with _ | num
    · intro r hr
      rcases ih st r hr with hin | ⟨he, mc', hmc', hsp⟩
      · exact Or.inl hin
      · exact Or.inr ⟨he, mc', List.mem_cons_of_mem _ hmc', hsp⟩
    · dsimp only
      by_cases hemp : num.isEmpty
      · rw [if_pos hemp]
        intro r hr
        rcases ih st r hr with hin | ⟨he, mc', hmc', hsp⟩
        · exact Or.inl hin
        · exact Or.inr ⟨he, mc', List.mem_cons_of_mem _ hmc', hsp⟩
      · rw [if_neg hemp]
        rcases hres : reserveSpan st.reserved m.ms m.me with ⟨b, r'⟩
        cases b
        · dsimp only
          by_cases hnorm : (String.mk (num.toList.filter Char.isDigit)).isEmpty <;>
            [rw [if_pos hnorm]; rw [if_neg hnorm]] <;> intro r hr
          · rcases ih _ r hr with hin | ⟨he, mc', hmc', hsp⟩
            · exact Or.inl hin
            · exact Or.inr ⟨he, mc', List.mem_cons_of_mem _ hmc', hsp⟩
          · rcases ih _ r hr with hin | ⟨he, mc', hmc', hsp⟩
            · rcases List.mem_append.1 hin with hin | hin
              · exact Or.inl hin
              · rw [List.mem_singleton] at hin
                subst hin
                exact Or.inr ⟨rfl, (m, some num), List.mem_cons_self _ _, rfl⟩
            · exact Or.inr ⟨he, mc', List.mem_cons_of_mem _ hmc', hsp⟩
        · dsimp only
          intro r hr
          rcases ih _ r hr with hin | ⟨he, mc', hmc', hsp⟩
          · exact Or.inl hin
          · exact Or.inr ⟨he, mc', List.mem_cons_of_mem _ hmc', hsp⟩

theorem amtPhase_results (t : List Char) (cands : List Mtch) (st : ExtState) :
    ∀ r ∈ (amtPhase t cands st).results,
      r ∈ st.results ∨ (r.entity = "AMOUNT" ∧ ∃ m ∈ cands, r.span = (m.ms, m.me)) := by
  induction cands generalizing st with
  | nil => exact fun r hr => Or.inl hr
  | cons m rest ih =>
    unfold amtPhase
    rcases hres : reserveSpan st.reserved m.ms m.me with ⟨b, r'⟩
    cases b
    · dsimp only
      by_cases hnorm : (normalize_amount (sliceStr t m.ms m.me)).isEmpty <;>
        [rw [if_pos hnorm]; rw [if_neg hnorm]] <;> intro r hr
      · rcases ih _ r hr with hin | ⟨he, m', hm', hsp⟩
        · exact Or.inl hin
        · exact Or.inr ⟨he, m', List.mem_cons_of_mem _ hm', hsp⟩
      · rcases ih _ r hr with hin | ⟨he, m', hm', hsp⟩
        · rcases List.mem_append.1 hin with hin | hin
          · exact Or.inl hin
          · rw [List.mem_singleton] at hin
            subst hin
            exact Or.inr ⟨rfl, m, List.mem_cons_self _ _, rfl⟩
        · exact Or.inr ⟨he, m', List.mem_cons_of_mem _ hm', hsp⟩
    · dsimp only
      intro r hr
      rcases ih _ r hr with hin | ⟨he, m', hm', hsp⟩
      · exact Or.inl hin
      · exact Or.inr ⟨he, m', List.mem_cons_of_mem _ hm', hsp⟩

/-- Every entity `extract` emits is one of the three phases' pattern matches,
carrying that match's exact span. -/
theorem extractFull_provenance (text : String) :
    ∀ r ∈ extractFull text,
      (r.entity = "TXN_ID" ∧
        ∃ mc ∈ txnCandList text.toList text.toList.length, r.span = (mc.1.ms, mc.1.me)) ∨
      (r.entity = "ACCOUNT_NUMBER" ∧
        ∃ mc ∈ acctCandList text.toList text.toList.length, r.span = (mc.1.ms, mc.1.me)) ∨
      (r.entity = "AMOUNT" ∧
        ∃ m ∈ amtMatchList text.toList text.toList.length, r.span = (m.ms, m.me)) := by
  unfold extractFull
  split_ifs with hemp
  · intro r hr
    simp at hr
  · dsimp only
    intro r hr
    rcases amtPhase_results _ _ _ r hr with h2 | hamt
    · rcases acctPhase_results _ _ r h2 with h1 | hacct
      · rcases txnPhase_results _ _ r h1 with h0 | htxn
        · simp at h0
        · exact Or.inl htxn
      · exact Or.inr (Or.inl hacct)
    · exact Or.inr (Or.inr hamt)

/-- The spans of every candidate match of the three phases, in phase order. -/
def allCandSpans (text : String) : List (Nat × Nat) :=
  (txnCandList text.toList text.toList.length).map (fun mc => (mc.1.ms, mc.1.me)) ++
  (acctCandList text.toList text.toList.length).map (fun mc => (mc.1.ms, mc.1.me)) ++
  (amtMatchList text.toList text.toList.length).map (fun m => (m.ms, m.me))

/-- C6: for every input text the reserved spans of the entities `extract`
emits are pairwise non-overlapping (overlap of `[s,e)` and `[a,b)` being
`NOT (e <= a OR s >= b)`, the `_reserve_span` predicate), and each emitted
span is exactly the span of some pattern match — an overlapping later
candidate is dropped whole, never trimmed. -/
theorem extractor_non_overlap (text : String) :
    (extractFull text).Pairwise (fun a b => overlapsB a.span b.span = false) ∧
    ∀ r ∈ extractFull text, r.span ∈ allCandSpans text := by
  refine ⟨extractFull_pairwise text, fun r hr => ?_⟩
  unfold allCandSpans
  rcases extractFull_provenance text r hr with ⟨_, mc, hmc, hsp⟩ | ⟨_, mc, hmc, hsp⟩ |
    ⟨_, m, hm, hsp⟩
  · exact List.mem_append_left _
      (List.mem_append_left _ (List.mem_map.2 ⟨mc, hmc, hsp.symm⟩))
  · exact List.mem_append_left _
      (List.mem_append_right _ (List.mem_map.2 ⟨mc, hmc, hsp.symm⟩))
  · exact List.mem_append_right _ (List.mem_map.2 ⟨m, hm, hsp.symm⟩)

/-- Witness for C6 on a text with a TXN id and an account number. -/
theorem extractor_non_overlap_witness :
    (extractFull "UTR: ABC123456 account 11223344").Pairwise
      (fun a b => overlapsB a.span b.span = false) ∧
    (⟨"TXN_ID", "ABC123456", (0, 14)⟩ : EFull).span ∈
      allCandSpans "UTR: ABC123456 account 11223344" :=
  ⟨(extractor_non_overlap "UTR: ABC123456 account 11223344").1,
   (extractor_non_overlap "UTR: ABC123456 account 11223344").2 _ (by decide)⟩

/-- The C7 counterexample text: the 40-character cap of the code class
truncates the leading `transaction ...` match at position 52, an inner `txn`
keyword yields a second transaction-ID candidate spanning `[17, 61)` that is
dropped (it overlaps the reserved `[0, 52)`), and the account-number match
`[53, 69)` overlaps that dropped candidate but not the reserved span. -/
def c7text : String :=
  "transaction aaaa-txn-ccccccccccccccccccccccccccccccc-account-12345678"

set_option maxRecDepth 100000 in
/-- C7 counterexample: `c7text` contains a transaction-ID pattern match
(span `[17, 61)`) and an account-number pattern match (span `[53, 69)`) with
overlapping spans, yet `extract` does NOT drop the ACCOUNT_NUMBER candidate —
it is emitted, because the overlapping transaction-ID candidate was itself
dropped and therefore never reserved its span. -/
theorem txn_priority_cex :
    (∃ mc ∈ txnCandList c7text.toList c7text.toList.length, (mc.1.ms, mc.1.me) = (17, 61)) ∧
    (∃ mc ∈ acctCandList c7text.toList c7text.toList.length, (mc.1.ms, mc.1.me) = (53, 69)) ∧
    overlapsB (17, 61) (53, 69) = true ∧
    (⟨"ACCOUNT_NUMBER", "12345678", (53, 69)⟩ : EFull) ∈ extractFull c7text := by
  refine ⟨?_, ?_, ?_, ?_⟩ <;> decide

/-- C7 amended: transaction-ID patterns run first, so an emitted TXN_ID
entity never overlaps an emitted ACCOUNT_NUMBER entity — an account-number
candidate overlapping a span actually reserved by a TXN_ID is dropped.  (When
the overlapping transaction-ID candidate was itself dropped, as in
`txn_priority_cex`, the account candidate may win.) -/
theorem txn_priority_amended (text : String) (rt ra : EFull)
    (hrt : rt ∈ extractFull text) (hra : ra ∈ extractFull text)
    (ht : rt.entity = "TXN_ID") (ha : ra.entity = "ACCOUNT_NUMBER") :
    overlapsB rt.span ra.span = false := by
  have hsym : Symmetric (fun a b : EFull => overlapsB a.span b.span = false) := by
    intro a b hab
    rw [overlapsB_comm]
    exact hab
  have hne : rt ≠ ra := by
    intro he
    rw [he, ha] at ht
    exact absurd ht (by decide)
  exact (extractFull_pairwise text).forall hsym hrt hra hne

/-- Witness for C7 amended. -/
theorem txn_priority_amended_witness :
    overlapsB (⟨"TXN_ID", "ABC123456", (0, 14)⟩ : EFull).span
      (⟨"ACCOUNT_NUMBER", "11223344", (15, 31)⟩ : EFull).span = false :=
  txn_priority_amended "UTR: ABC123456 account 11223344" _ _
    (by decide) (by decide) rfl rfl

/-- The card-block entity loop prompts when no entity is a CARD_TYPE. -/
theorem cardEntityLoop_no_card (gw : Gateway) (st : ConversationState) (u : String)
    (all : List Entity) (es : List Entity) (hno : ∀ e ∈ es, e.entity ≠ "CARD_TYPE") :
    cardEntityLoop gw st u es all =
      ({ st with awaiting := some "card_type" },
       .ok (some "Please provide your card type to block (debit / credit).")) := by
  induction es with
  | nil => rfl
  | cons e rest ih =>
    unfold cardEntityLoop
    rw [if_neg (hno e (List.mem_cons_self _ _))]
    exact ih fun e' he' => hno e' (List.mem_cons_of_mem _ he')

/-- C10: the main extractor only ever emits TXN_ID, ACCOUNT_NUMBER and
AMOUNT entities — never CARD_TYPE or ACCOUNT_TYPE — so with entities coming
from this extractor the card-block flow's entity shortcut is unreachable:
whenever the card flow is not already awaiting the card type, it always
prompts for it instead of blocking on an entity. -/
theorem extract_kinds_card_shortcut_unreachable :
    (∀ (text : String), ∀ r ∈ extract text,
      r.entity = "TXN_ID" ∨ r.entity = "ACCOUNT_NUMBER" ∨ r.entity = "AMOUNT") ∧
    (∀ (gw : Gateway) (st : ConversationState) (text u : String),
      st.awaiting ≠ some "card_type" →
      handle_card_block gw st (extract text) u =
        ({ st with awaiting := some "card_type" },
         .ok (some "Please provide your card type to block (debit / credit)."))) := by
  have hkinds : ∀ (text : String), ∀ r ∈ extract text,
      r.entity = "TXN_ID" ∨ r.entity = "ACCOUNT_NUMBER" ∨ r.entity = "AMOUNT" := by
    intro text r hr
    unfold extract at hr
    rcases List.mem_map.1 hr with ⟨rf, hrf, heq⟩
    subst heq
    rcases extractFull_provenance text rf hrf with ⟨he, _⟩ | ⟨he, _⟩ | ⟨he, _⟩
    · exact Or.inl he
    · exact Or.inr (Or.inl he)
    · exact Or.inr (Or.inr he)
  refine ⟨hkinds, fun gw st text u hne => ?_⟩
  unfold handle_card_block
  rw [if_neg hne]
  refine cardEntityLoop_no_card gw st u _ _ fun e he => ?_
  rcases hkinds text e he with h | h | h <;> rw [h] <;> decide

/-- Witness for C10: an utterance whose extracted entities hold an account
number still leads the card flow to prompt rather than block. -/
theorem extract_kinds_card_shortcut_unreachable_witness :
    ((⟨"ACCOUNT_NUMBER", "12345"⟩ : Entity).entity = "TXN_ID" ∨
     (⟨"ACCOUNT_NUMBER", "12345"⟩ : Entity).entity = "ACCOUNT_NUMBER" ∨
     (⟨"ACCOUNT_NUMBER", "12345"⟩ : Entity).entity = "AMOUNT") ∧
    handle_card_block gwSample resetState (extract "block account 12345") "block account 12345" =
      ({ resetState with awaiting := some "card_type" },
       .ok (some "Please provide your card type to block (debit / credit).")) :=
  ⟨extract_kinds_card_shortcut_unreachable.1 "account 12345 for 500"
      ⟨"ACCOUNT_NUMBER", "12345"⟩ (by decide),
   extract_kinds_card_shortcut_unreachable.2 gwSample resetState
      "block account 12345" "block account 12345" (by decide)⟩

/-! ### Denotational semantics of the regex AST, and soundness of the
matcher (used for C8: every amount match contains a currency marker). -/

/-- `Sem t r i j`: pattern `r` matches the slice `[i, j)` of `t`
(case-insensitively for literal characters, as the matcher does). -/
inductive Sem (t : List Char) : Re → Nat → Nat → Prop where
  | eps (i : Nat) : Sem t .eps i i
  | chr {c d : Char} {i : Nat} (hg : t.get? i = some d) (hl : d.toLower = c.toLower) :
      Sem t (.chr c) i (i + 1)
  | cls {f : Char → Bool} {d : Char} {i : Nat} (hg : t.get? i = some d) (hf : f d = true) :
      Sem t (.cls f) i (i + 1)
  | seq {a b : Re} {i j k : Nat} (ha : Sem t a i j) (hb : Sem t b j k) : Sem t (.seq a b) i k
  | altL {a b : Re} {i j : Nat} (ha : Sem t a i j) : Sem t (.alt a b) i j
  | altR {a b : Re} {i j : Nat} (hb : Sem t b i j) : Sem t (.alt a b) i j
  | optS {a : Re} {i j : Nat} (ha : Sem t a i j) : Sem t (.opt a) i j
  | optN (a : Re) (i : Nat) : Sem t (.opt a) i i
  | wordB {i : Nat} (hb : boundaryAt t i = true) : Sem t .wordB i i
  | group {idx : Nat} {a : Re} {i j : Nat} (ha : Sem t a i j) : Sem t (.group idx a) i j

/-- Matches only move forward. -/
theorem Sem.le {t : List Char} {r : Re} {i j : Nat} (h : Sem t r i j) : i ≤ j := by
  induction h <;> omega

/-- Soundness of the backtracking matcher with respect to `Sem`. -/
theorem runs_sound {t : List Char} (r : Re) :
    ∀ (i : Nat) (caps : Caps) (p : Nat × Caps),
      p ∈ Re.runs t r i caps → Sem t r i p.1 := by
  induction r with
  | eps =>
    intro i caps p hp
    unfold Re.runs at hp
    rw [List.mem_singleton] at hp
    subst hp
    exact Sem.eps i
  | chr c =>
    intro i caps p hp
    unfold Re.runs at hp
    rcases hg : t.get? i with _ | d <;> rw [hg] at hp <;> dsimp only at hp
    · simp at hp
    · split_ifs at hp with hc
      · rw [List.mem_singleton] at hp
        subst hp
        exact Sem.chr hg (by simpa using hc)
      · simp at hp
  | cls f =>
    intro i caps p hp
    unfold Re.runs at hp
    rcases hg : t.get? i with _ | d <;> rw [hg] at hp <;> dsimp only at hp
    · simp at hp
    · split_ifs at hp with hc
      · rw [List.mem_singleton] at hp
        subst hp
        exact Sem.cls hg hc
      · simp at hp
  | seq a b iha ihb =>
    intro i caps p hp
    unfold Re.runs at hp
    rcases List.mem_flatMap.1 hp with ⟨q, hq, hp2⟩
    exact Sem.seq (iha i caps q hq) (ihb q.1 q.2 p hp2)
  | alt a b iha ihb =>
    intro i caps p hp
    unfold Re.runs at hp
    rcases List.mem_append.1 hp with hp | hp
    · exact Sem.altL (iha i caps p hp)
    · exact Sem.altR (ihb i caps p hp)
  | opt a iha =>
    intro i caps p hp
    unfold Re.runs at hp
    rcases List.mem_append.1 hp with hp | hp
    · exact Sem.optS (iha i caps p hp)
    · rw [List.mem_singleton] at hp
      subst hp
      exact Sem.optN a i
  | wordB =>
    intro i caps p hp
    unfold Re.runs at hp
    split_ifs at hp with hb
    · rw [List.mem_singleton] at hp
      subst hp
      exact Sem.wordB hb
    · simp at hp
  | group idx a iha =>
    intro i caps p hp
    unfold Re.runs at hp
    rcases List.mem_map.1 hp with ⟨q, hq, hp2⟩
    have := iha i caps q hq
    rw [← hp2]
    exact Sem.group this

/-- Soundness of `finditer`: every reported match is a real match. -/
theorem findIterGo_sound {r : Re} {t : List Char} :
    ∀ (fuel pos : Nat) (m : Mtch), m ∈ findIterGo r t fuel pos → Sem t r m.ms m.me := by
  intro fuel
  induction fuel with
  | zero =>
    intro pos m hm
    simp [findIterGo] at hm
  | succ f ih =>
    intro pos m hm
    unfold findIterGo at hm
    split_ifs at hm with hgt
    · simp at hm
    · rcases hh : (Re.runs t r pos []).head? with _ | q <;> rw [hh] at hm
      · exact ih _ m hm
      · rcases List.mem_cons.1 hm with hm | hm
        · subst hm
          exact runs_sound r pos [] q (List.mem_of_mem_head? (hh ▸ rfl))
        · exact ih _ m hm

theorem findIter_sound {r : Re} {t : List Char} {m : Mtch} (h : m ∈ findIter r t) :
    Sem t r m.ms m.me :=
  findIterGo_sound _ _ m h

/-- Case-insensitive occurrence of the word `w` at position `p` of `t`. -/
def occursCIAt (t : List Char) : List Char → Nat → Bool
  | [], _ => true
  | c :: cs, p =>
    match t.get? p with
    | some d => d.toLower == c.toLower && occursCIAt t cs (p + 1)
    | none => false

/-- A literal match is exactly a case-insensitive occurrence. -/
theorem Sem_litL {t : List Char} :
    ∀ (l : List Char) {i j : Nat}, Sem t (rcat (l.map .chr)) i j →
      j = i + l.length ∧ occursCIAt t l i = true := by
  intro l
  induction l with
  | nil =>
    intro i j h
    simp only [List.map_nil, rcat] at h
    cases h
    exact ⟨by simp, rfl⟩
  | cons c rest ih =>
    intro i j h
    cases rest with
    | nil =>
      simp only [List.map_cons, List.map_nil, rcat] at h
      cases h with
      | chr hg hl =>
        refine ⟨by simp, ?_⟩
        unfold occursCIAt
        rw [hg]
        simp [hl, occursCIAt]
    | cons c2 rest2 =>
      simp only [List.map_cons, rcat] at h
      cases h with
      | seq h1 h2 =>
        cases h1 with
        | chr hg hl =>
          obtain ⟨hj, hocc⟩ := ih (by simpa only [List.map_cons, rcat] using h2)
          constructor
          · simp only [List.length_cons] at hj ⊢
            omega
          · unfold occursCIAt
            rw [hg]
            simp only [hl, beq_self_eq_true, Bool.true_and]
            exact hocc

/-- `Sem` for a string literal. -/
theorem Sem_lit {t : List Char} {s : String} {i j : Nat} (h : Sem t (lit s) i j) :
    j = i + s.toList.length ∧ occursCIAt t s.toList i = true :=
  Sem_litL s.toList h

/-- The currency tokens of the two amount patterns (and of the
`_normalize_amount` word pattern), as they appear in the pattern sources;
matching is case-insensitive. -/
def currencyMarkers : List String :=
  ["₹", "$", "Rs", "INR", "USD", "rupees", "rs", "inr", "usd", "dollars"]

/-- Some currency marker occurs (case-insensitively) inside `[s, e)`. -/
def markerWithin (t : List Char) (s e : Nat) : Prop :=
  ∃ w ∈ currencyMarkers, ∃ p, s ≤ p ∧ p + w.toList.length ≤ e ∧ occursCIAt t w.toList p = true

theorem Sem_seq_inv {t : List Char} {a b : Re} {i k : Nat} (h : Sem t (.seq a b) i k) :
    ∃ j, Sem t a i j ∧ Sem t b j k := by
  cases h with
  | seq ha hb => exact ⟨_, ha, hb⟩

theorem Sem_alt_inv {t : List Char} {a b : Re} {i j : Nat} (h : Sem t (.alt a b) i j) :
    Sem t a i j ∨ Sem t b i j := by
  cases h with
  | altL ha => exact Or.inl ha
  | altR hb => exact Or.inr hb

theorem Sem_wordB_inv {t : List Char} {i j : Nat} (h : Sem t .wordB i j) : j = i := by
  cases h
  rfl

/-- Every match of the first amount pattern contains a currency marker. -/
theorem amtRe1_marker {t : List Char} {n i j : Nat} (h : Sem t (amtRe1 n) i j) :
    markerWithin t i j := by
  unfold amtRe1 at h
  simp only [rcat, ralt] at h
  obtain ⟨p1, hw, h2⟩ := Sem_seq_inv h
  obtain rfl : p1 = i := Sem_wordB_inv hw
  obtain ⟨q, hcur, hrest⟩ := Sem_seq_inv h2
  have hq : q ≤ j := hrest.le
  rcases Sem_alt_inv hcur with h1 | hcur2
  · obtain ⟨hj, hocc⟩ := Sem_lit h1
    exact ⟨"₹", by simp [currencyMarkers], p1, le_refl p1, by omega, hocc⟩
  rcases Sem_alt_inv hcur2 with h1 | hcur3
  · obtain ⟨hj, hocc⟩ := Sem_lit h1
    exact ⟨"$", by simp [currencyMarkers], p1, le_refl p1, by omega, hocc⟩
  rcases Sem_alt_inv hcur3 with hrs | hcur4
  · obtain ⟨q2, hlit, hopt⟩ := Sem_seq_inv hrs
    obtain ⟨hj, hocc⟩ := Sem_lit hlit
    have hq2 : q2 ≤ q := hopt.le
    exact ⟨"Rs", by simp [currencyMarkers], p1, le_refl p1, by omega, hocc⟩
  rcases Sem_alt_inv hcur4 with h1 | h1
  · obtain ⟨hj, hocc⟩ := Sem_lit h1
    exact ⟨"INR", by simp [currencyMarkers], p1, le_refl p1, by omega, hocc⟩
  · obtain ⟨hj, hocc⟩ := Sem_lit h1
    exact ⟨"USD", by simp [currencyMarkers], p1, le_refl p1, by omega, hocc⟩

/-- Every match of the second amount pattern contains a currency marker. -/
theorem amtRe2_marker {t : List Char} {n i j : Nat} (h : Sem t (amtRe2 n) i j) :
    markerWithin t i j := by
  unfold amtRe2 at h
  simp only [rcat, ralt] at h
  obtain ⟨p1, hw, h2⟩ := Sem_seq_inv h
  obtain rfl : p1 = i := Sem_wordB_inv hw
  obtain ⟨p2, hd, h3⟩ := Sem_seq_inv h2
  obtain ⟨p3, hstar, h4⟩ := Sem_seq_inv h3
  obtain ⟨p4, hopt, h5⟩ := Sem_seq_inv h4
  obtain ⟨p5, hws, h6⟩ := Sem_seq_inv h5
  obtain ⟨p6, hword, hwb⟩ := Sem_seq_inv h6
  obtain rfl : j = p6 := Sem_wordB_inv hwb
  have hip5 : p1 ≤ p5 := hd.le.trans (hstar.le.trans (hopt.le.trans hws.le))
  rcases Sem_alt_inv hword with h1 | hword2
  · obtain ⟨hj, hocc⟩ := Sem_lit h1
    exact ⟨"rupees", by simp [currencyMarkers], p5, hip5, by omega, hocc⟩
  rcases Sem_alt_inv hword2 with h1 | hword3
  · obtain ⟨hj, hocc⟩ := Sem_lit h1
    exact ⟨"rs", by simp [currencyMarkers], p5, hip5, by omega, hocc⟩
  rcases Sem_alt_inv hword3 with h1 | hword4
  · obtain ⟨hj, hocc⟩ := Sem_lit h1
    exact ⟨"inr", by simp [currencyMarkers], p5, hip5, by omega, hocc⟩
  rcases Sem_alt_inv hword4 with h1 | h1
  · obtain ⟨hj, hocc⟩ := Sem_lit h1
    exact ⟨"usd", by simp [currencyMarkers], p5, hip5, by omega, hocc⟩
  · obtain ⟨hj, hocc⟩ := Sem_lit h1
    exact ⟨"dollars", by simp [currencyMarkers], p5, hip5, by omega, hocc⟩

/-- C8: every AMOUNT entity `extract` emits comes from a match whose span
contains an explicit currency symbol or currency code/word — a bare number
with no currency marker is never labeled AMOUNT; in particular
`extract "account 12345 for 500"` yields exactly one ACCOUNT_NUMBER entity
and no AMOUNT entity. -/
theorem amount_requires_currency :
    (∀ (text : String), ∀ r ∈ extractFull text, r.entity = "AMOUNT" →
      markerWithin text.toList r.span.1 r.span.2) ∧
    extract "account 12345 for 500" = [⟨"ACCOUNT_NUMBER", "12345"⟩] := by
  constructor
  · intro text r hr hamt
    rcases extractFull_provenance text r hr with ⟨he, _⟩ | ⟨he, _⟩ | ⟨_, m, hm, hsp⟩
    · rw [hamt] at he
      exact absurd he (by decide)
    · rw [hamt] at he
      exact absurd he (by decide)
    · rw [hsp]
      unfold amtMatchList at hm
      rcases List.mem_append.1 hm with hm | hm
      · exact amtRe1_marker (findIter_sound hm)
      · exact amtRe2_marker (findIter_sound hm)
  · decide

/-- Witness for C8: "pay 500 rupees" carries the marker "rupees" inside its
emitted AMOUNT span, and the claim's concrete bare-number text yields no
AMOUNT. -/
theorem amount_requires_currency_witness :
    markerWithin "pay 500 rupees".toList
      (⟨"AMOUNT", "500", (4, 14)⟩ : EFull).span.1
      (⟨"AMOUNT", "500", (4, 14)⟩ : EFull).span.2 ∧
    extract "account 12345 for 500" = [⟨"ACCOUNT_NUMBER", "12345"⟩] :=
  ⟨amount_requires_currency.1 "pay 500 rupees" ⟨"AMOUNT", "500", (4, 14)⟩
    (by decide) rfl,
   amount_requires_currency.2⟩

/-- Witness for C1: a concrete gateway satisfying the scenario's hypotheses. -/
theorem transfer_flow_scenario_witness :
    handle gwSample resetState (some "transfer_money") [] "1234567890" =
      (transferS1, .ok (some "How much amount do you want to transfer?")) ∧
    handle gwSample transferS1 (some "transfer_money") [] "500" =
      (transferS2, .ok (some "Please enter your password to proceed.")) ∧
    handle gwSample transferS2 (some "transfer_money") [] "secret" =
      (transferS3, .ok (some ("Select receiver account:\n" ++ pyJoin "\n"
        ((gwSample.list_accounts.filter fun au => au.1 ≠ "1234567890").map
          fun au => au.2 ++ " (" ++ au.1 ++ ")")))) ∧
    handle gwSample transferS3 (some "transfer_money") [] "ramesh (9876543210)" =
      (resetState, .ok (some "✅ Transfer Successful")) :=
  transfer_flow_scenario gwSample ⟨"1234567890", "me", "savings", 9000⟩
    (some "transfer_money") (some "transfer_money") (some "transfer_money")
    "ramesh (9876543210)" (by decide) (by decide) rfl
    (by decide) (by decide) (by decide) (by decide) (by decide)

end BankBot
